import Mathlib

/-!
Shallow embedding of the control-animation repository: the application shell
(app.py), the ControlNet-guided diffusion pipeline (custom_pipeline.py) and
the media utilities (utils/utils.py).  Exact machine numbers are modelled by
Nat, Int and Rat; tensors by nested lists; fallible code by Except.
-/

/-- Python int() applied to an exact rational value: truncation toward zero. -/
def pyInt (q : ℚ) : ℤ := if 0 ≤ q then ⌊q⌋ else ⌈q⌉

/-- pyInt agrees with the floor on nonnegative arguments. -/
theorem pyInt_nonneg_eq_floor (q : ℚ) (h : 0 ≤ q) : pyInt q = ⌊q⌋ := if_pos h

/-- An integer lower bound transfers to pyInt on a nonnegative argument. -/
theorem le_pyInt (z : ℤ) (q : ℚ) (hq : 0 ≤ q) (h : (z : ℚ) ≤ q) : z ≤ pyInt q := by
  rw [pyInt_nonneg_eq_floor q hq]
  exact Int.le_floor.mpr h

/-! ## Application shell (src/app.py) -/

/-- Value of the Python variable on_huggingspace: either the string read from
the SPACE_AUTHOR_NAME environment variable, or the Python constant False when
the variable is absent (app.py lines 11-12). -/
inductive PyTruthVal where
  | str (s : String)
  | pyFalse
deriving Repr, DecidableEq

/-- Embedding of app.py lines 11-12: huggingspace_name = os.environ.get(...)
and on_huggingspace = huggingspace_name if huggingspace_name is not None
else False. -/
def on_huggingspace (spaceAuthorName : Option String) : PyTruthVal :=
  match spaceAuthorName with
  | some s => .str s
  | none => .pyFalse

/-- Python truthiness of the on_huggingspace value: a string is truthy iff it
is non-empty, and False is falsy. -/
def pyTruthy : PyTruthVal → Bool
  | .str s => s != ""
  | .pyFalse => false

/-- Observable launch behaviour of the application shell: banner, queue
bound, queue API flag, served directories, public sharing, debug logging and
whether the access link is printed. -/
structure LaunchPlan where
  showBanner : Bool
  queueMaxSize : Option Nat
  queueApiOpen : Option Bool
  fileDirectories : List String
  share : Bool
  debug : Bool
  printsLink : Bool
deriving Repr, DecidableEq

/-- Embedding of the launch logic of app.py: the banner block (guarded by
on_huggingspace) and the final launch branch (lines 67-74). -/
def app_launch (spaceAuthorName : Option String) (publicAccess : Bool) : LaunchPlan :=
  if pyTruthy (on_huggingspace spaceAuthorName) then
    { showBanner := true, queueMaxSize := some 20, queueApiOpen := none,
      fileDirectories := [], share := false, debug := true, printsLink := false }
  else
    { showBanner := false, queueMaxSize := none, queueApiOpen := some false,
      fileDirectories := ["temporal"], share := publicAccess, debug := true,
      printsLink := true }

/-! ## Media utilities (src/utils/utils.py) -/

/-- Geometry computed by add_watermark: the scaled watermark width and height
and the top-left paste offset. -/
structure WatermarkPlacement where
  w : ℤ
  h : ℤ
  locW : ℤ
  locH : ℤ
deriving Repr, DecidableEq

/-- Embedding of add_watermark (utils.py): the image has height H and width
W, the watermark file has width w0 and height h0; PIL resize takes a
(width, height) pair, so the branch on aspect = h0 / w0 fixes the scaled
width to wmsize when aspect > 1 and the scaled height to wmsize otherwise. -/
def add_watermark (H W w0 h0 : ℕ) (wmRelSize : ℚ) (boundary : ℤ) : WatermarkPlacement :=
  let wmsize : ℤ := pyInt ((max H W : ℚ) * wmRelSize)
  let aspect : ℚ := (h0 : ℚ) / (w0 : ℚ)
  let wh : ℤ × ℤ :=
    if 1 < aspect then (wmsize, pyInt (aspect * (wmsize : ℚ)))
    else (pyInt ((wmsize : ℚ) / aspect), wmsize)
  { w := wh.1, h := wh.2,
    locW := (W : ℤ) - wh.1 - boundary, locH := (H : ℤ) - wh.2 - boundary }

/-- Effect of post_process_gif (utils.py): the file written (path, frame
rate, frames) paired with the returned path. -/
structure GifWrite (α : Type) where
  outputFile : String
  fps : Nat
  frames : List α
deriving Repr

/-- Embedding of post_process_gif: writes the frames to the fixed path
/tmp/ddxk.gif at 4 frames per second and returns that path; the
image_resolution argument is never read. -/
def post_process_gif {α : Type} (listOfResults : List α) (imageResolution : ℤ) :
    GifWrite α × String :=
  let write : GifWrite α :=
    { outputFile := "/tmp/ddxk.gif", fps := 4, frames := listOfResults }
  (write, write.outputFile)

/-! ## Theorems for the application shell and media utilities -/

/-- C9: counterexample — with the managed-hosting environment variable set to
the empty string (present, but empty), the shell takes the non-managed
branch: no banner, unbounded queue, and the access link is printed, contrary
to the claim that mere presence regardless of value selects managed-hosting
behaviour. -/
theorem app_launch_empty_env_counterexample :
    (app_launch (some "") false).showBanner = false ∧
    (app_launch (some "") false).queueMaxSize = none ∧
    (app_launch (some "") false).printsLink = true := by
  decide

/-- C9 (amended): presence of the managed-hosting environment variable with a
non-empty value switches the shell into managed-hosting launch behaviour
(banner shown, queue bounded to 20, debug logging, no link printed); when the
variable is absent — or present with the empty value, which Python treats as
falsy — the shell launches with the queue API disabled, serves the temporal
scratch directory, shares per the public-access flag, and prints the link. -/
theorem app_launch_managed_iff_nonempty (env : Option String) (publicAccess : Bool) :
    ((∃ s, env = some s ∧ s ≠ "") →
      app_launch env publicAccess =
        { showBanner := true, queueMaxSize := some 20, queueApiOpen := none,
          fileDirectories := [], share := false, debug := true, printsLink := false }) ∧
    ((env = none ∨ env = some "") →
      app_launch env publicAccess =
        { showBanner := false, queueMaxSize := none, queueApiOpen := some false,
          fileDirectories := ["temporal"], share := publicAccess, debug := true,
          printsLink := true }) := by
  constructor
  · rintro ⟨s, rfl, hs⟩
    simp [app_launch, on_huggingspace, pyTruthy, hs]
  · rintro (rfl | rfl) <;> simp [app_launch, on_huggingspace, pyTruthy]

/-- C9 witness: a concrete non-empty operator name selects the managed plan. -/
theorem app_launch_managed_iff_nonempty_witness :
    app_launch (some "PAIR") false =
      { showBanner := true, queueMaxSize := some 20, queueApiOpen := none,
        fileDirectories := [], share := false, debug := true, printsLink := false } :=
  (app_launch_managed_iff_nonempty (some "PAIR") false).1 ⟨"PAIR", rfl, by decide⟩

/-- C10: post_process_gif always writes to the fixed path /tmp/ddxk.gif at 4
frames per second and returns that path, and its whole result is independent
of the image_resolution argument. -/
theorem post_process_gif_fixed_output (l : List (List ℕ)) (r1 r2 : ℤ) :
    (post_process_gif l r1).2 = "/tmp/ddxk.gif" ∧
    (post_process_gif l r1).1.outputFile = "/tmp/ddxk.gif" ∧
    (post_process_gif l r1).1.fps = 4 ∧
    (post_process_gif l r1).1.frames = l ∧
    post_process_gif l r1 = post_process_gif l r2 :=
  ⟨rfl, rfl, rfl, rfl, rfl⟩

/-- C3: counterexample — for a 1024 by 1024 image and a watermark file of
width 1 and height 2 (aspect ratio 2), the scaled watermark is 64 by 128:
its larger scaled dimension is 128, not int(max(H, W) / 16) = 64; the code
fixes the smaller dimension to wmsize and scales the other one up by the
aspect ratio. -/
theorem add_watermark_larger_dim_counterexample :
    max (add_watermark 1024 1024 1 2 (1/16) 5).w
        (add_watermark 1024 1024 1 2 (1/16) 5).h = 128 ∧
    ¬ (max (add_watermark 1024 1024 1 2 (1/16) 5).w
           (add_watermark 1024 1024 1 2 (1/16) 5).h = 64) := by
  have h : add_watermark 1024 1024 1 2 (1/16) 5 =
      { w := 64, h := 128, locW := 955, locH := 891 } := by
    norm_num [add_watermark, pyInt]
  rw [h]
  refine ⟨by norm_num, by norm_num⟩

/-- C3 (amended): for every image of height H, width W and every watermark
of positive width w0 and height h0, add_watermark with default relative size
1/16 and margin 5 scales the watermark preserving aspect ratio so that its
SMALLER scaled dimension equals int(max(H, W) / 16) (64 pixels when
max(H, W) = 1024), and pastes it at top-left offset
(W - w - 5, H - h - 5) where w, h are the scaled watermark dimensions. -/
theorem add_watermark_amended_spec (H W w0 h0 : ℕ) (hw0 : 0 < w0) (hh0 : 0 < h0) :
    min (add_watermark H W w0 h0 (1/16) 5).w (add_watermark H W w0 h0 (1/16) 5).h
        = pyInt ((max H W : ℚ) * (1/16)) ∧
    (add_watermark H W w0 h0 (1/16) 5).locW
        = (W : ℤ) - (add_watermark H W w0 h0 (1/16) 5).w - 5 ∧
    (add_watermark H W w0 h0 (1/16) 5).locH
        = (H : ℤ) - (add_watermark H W w0 h0 (1/16) 5).h - 5 ∧
    (max H W = 1024 → pyInt ((max H W : ℚ) * (1/16)) = 64) := by
  have hw0Q : (0 : ℚ) < (w0 : ℚ) := by exact_mod_cast hw0
  have hh0Q : (0 : ℚ) < (h0 : ℚ) := by exact_mod_cast hh0
  have haspect : (0 : ℚ) < (h0 : ℚ) / (w0 : ℚ) := div_pos hh0Q hw0Q
  have hwmQ : (0 : ℚ) ≤ (max H W : ℚ) * (1/16) := by positivity
  have hwm : (0 : ℤ) ≤ pyInt ((max H W : ℚ) * (1/16)) :=
    le_pyInt 0 _ hwmQ (by exact_mod_cast hwmQ)
  have hwmQ2 : (0 : ℚ) ≤ (pyInt ((max H W : ℚ) * (1/16)) : ℚ) := by exact_mod_cast hwm
  refine ⟨?_, ?_, ?_, ?_⟩
  · by_cases hA : 1 < (h0 : ℚ) / (w0 : ℚ)
    · have hmul : (0 : ℚ) ≤ (h0 : ℚ) / (w0 : ℚ) * (pyInt ((max H W : ℚ) * (1/16)) : ℚ) :=
        mul_nonneg (le_of_lt haspect) hwmQ2
      have hle : pyInt ((max H W : ℚ) * (1/16))
          ≤ pyInt ((h0 : ℚ) / (w0 : ℚ) * (pyInt ((max H W : ℚ) * (1/16)) : ℚ)) :=
        le_pyInt _ _ hmul (le_mul_of_one_le_left hwmQ2 (le_of_lt hA))
      simp only [add_watermark, hA, if_true]
      exact min_eq_left hle
    · have hA2 : (h0 : ℚ) / (w0 : ℚ) ≤ 1 := le_of_not_lt hA
      have hdivQ : (pyInt ((max H W : ℚ) * (1/16)) : ℚ)
          ≤ (pyInt ((max H W : ℚ) * (1/16)) : ℚ) / ((h0 : ℚ) / (w0 : ℚ)) := by
        rw [le_div_iff₀ haspect]
        calc (pyInt ((max H W : ℚ) * (1/16)) : ℚ) * ((h0 : ℚ) / (w0 : ℚ))
            ≤ (pyInt ((max H W : ℚ) * (1/16)) : ℚ) * 1 := by
              exact mul_le_mul_of_nonneg_left hA2 hwmQ2
          _ = (pyInt ((max H W : ℚ) * (1/16)) : ℚ) := mul_one _
      have hdiv0 : (0 : ℚ) ≤ (pyInt ((max H W : ℚ) * (1/16)) : ℚ) / ((h0 : ℚ) / (w0 : ℚ)) :=
        div_nonneg hwmQ2 (le_of_lt haspect)
      have hle : pyInt ((max H W : ℚ) * (1/16))
          ≤ pyInt ((pyInt ((max H W : ℚ) * (1/16)) : ℚ) / ((h0 : ℚ) / (w0 : ℚ))) :=
        le_pyInt _ _ hdiv0 hdivQ
      simp only [add_watermark, hA, if_false]
      exact min_eq_right hle
  · by_cases hA : 1 < (h0 : ℚ) / (w0 : ℚ) <;> simp [add_watermark, hA]
  · by_cases hA : 1 < (h0 : ℚ) / (w0 : ℚ) <;> simp [add_watermark, hA]
  · intro hmax
    have hq : (max (H : ℚ) (W : ℚ)) = 1024 := by
      rw [← Nat.cast_max]
      exact_mod_cast congrArg (fun n : ℕ => (n : ℚ)) hmax
    rw [hq]
    norm_num [pyInt]

/-- C3 witness: a 1024 by 1024 image with a square-aspect 10 by 10 watermark
gives smaller scaled dimension 64 and the stated paste offsets. -/
theorem add_watermark_amended_spec_witness :
    min (add_watermark 1024 1024 10 10 (1/16) 5).w
        (add_watermark 1024 1024 10 10 (1/16) 5).h = 64 := by
  have h := add_watermark_amended_spec 1024 1024 10 10 (by decide) (by decide)
  rw [h.1, h.2.2.2 (by decide)]

/-! ## Safety checker (custom_pipeline.py, _run_safety_checker and the
blocking loop of __call__) -/

/-- A decoded image flattened to its pixel values (uint8 entries). -/
abbrev NpImage := List ℕ

/-- The all-zero (black) image of the same shape as the given image:
np.zeros(images[idx].shape, dtype=np.uint8). -/
def zerosLike (img : NpImage) : NpImage := img.map (fun _ => 0)

/-- Embedding of the substitution loop of _run_safety_checker (and of the
blocking loop of __call__, which copies the already-zeroed flagged entries
into the float result): iterate over the per-image nsfw flags and replace
each flagged image by the all-zero image of its shape, leaving every other
image untouched. -/
def blockFlagged : List NpImage → List Bool → List NpImage
  | [], _ => []
  | imgs, [] => imgs
  | img :: rest, f :: fs => (if f then zerosLike img else img) :: blockFlagged rest fs

/-- Number of warnings emitted by _run_safety_checker: the warn call sits
inside the for loop over the flags, guarded by any(has_nsfw_concepts), so
one warning is emitted per flag entry as soon as any flag is set. -/
def safetyWarnCount (flags : List Bool) : ℕ :=
  if flags.any id then flags.length else 0

/-- Embedding of _run_safety_checker after the classifier ran: given the
decoded images and the per-image nsfw flags produced by the external safety
model, return the (possibly blanked) images, the flags, and the number of
warnings emitted. -/
def run_safety_checker (images : List NpImage) (flags : List Bool) :
    List NpImage × List Bool × ℕ :=
  (blockFlagged images flags, flags, safetyWarnCount flags)

theorem blockFlagged_length (images : List NpImage) (flags : List Bool) :
    (blockFlagged images flags).length = images.length := by
  induction images generalizing flags with
  | nil => cases flags <;> rfl
  | cons img rest ih =>
    cases flags with
    | nil => rfl
    | cons f fs => simp [blockFlagged, ih]

theorem blockFlagged_getD (images : List NpImage) (flags : List Bool) (i : ℕ)
    (hi : i < images.length) :
    (blockFlagged images flags).getD i [] =
      (if flags.getD i false then zerosLike (images.getD i []) else images.getD i []) := by
  induction images generalizing flags i with
  | nil => simp at hi
  | cons img rest ih =>
    cases flags with
    | nil => cases i <;> simp [blockFlagged]
    | cons f fs =>
      cases i with
      | zero => simp [blockFlagged]
      | succ j =>
        have hj : j < rest.length := by simpa using hi
        simpa [blockFlagged] using ih fs j hj

/-! ## Text input preparation (custom_pipeline.py, prepare_text_inputs) -/

/-- Model of the external CLIP tokenizer invoked with padding to max_length
and truncation enabled: the raw encoding of a string, the configured maximum
sequence length, and the pad token id. -/
structure TokenizerModel where
  modelMaxLength : ℕ
  padTokenId : ℤ
  encode : String → List ℤ

/-- Padding and truncation to the fixed maximum length, as performed by the
tokenizer call in prepare_text_inputs: truncate to maxLen, then pad with the
pad token up to maxLen. -/
def padTruncate (maxLen : ℕ) (padId : ℤ) (toks : List ℤ) : List ℤ :=
  toks.take maxLen ++ List.replicate (maxLen - toks.length) padId

/-- One tokenized row of the returned input_ids array. -/
def tokenizeMaxLength (T : TokenizerModel) (s : String) : List ℤ :=
  padTruncate T.modelMaxLength T.padTokenId (T.encode s)

/-- The possible runtime types of the prompt argument: a string, a list of
strings, or a value of any other type (identified by its type name). -/
inductive PromptArg where
  | str (s : String)
  | list (l : List String)
  | other (typeName : String)

/-- Embedding of prepare_text_inputs: reject any prompt that is neither a
string nor a list, otherwise tokenize with padding to the configured maximum
length and truncation, returning the token-id rows. -/
def prepare_text_inputs (T : TokenizerModel) (prompt : PromptArg) :
    Except String (List (List ℤ)) :=
  match prompt with
  | .str s => .ok [tokenizeMaxLength T s]
  | .list l => .ok (l.map (tokenizeMaxLength T))
  | .other typeName =>
      .error ("prompt has to be of type str or list but is " ++ typeName)

theorem padTruncate_length (maxLen : ℕ) (padId : ℤ) (toks : List ℤ) :
    (padTruncate maxLen padId toks).length = maxLen := by
  simp [padTruncate]
  omega

/-- C8: prepare_text_inputs returns, for a single string or a list of
strings, token-id rows whose length is exactly the configured maximum —
obtained by padding with the pad token when the raw encoding is shorter and
by truncation when it is longer — and fails with an InvalidInput error,
producing no rows, for a prompt of any other runtime type. -/
theorem prepare_text_inputs_spec (T : TokenizerModel) :
    (∀ s : String, prepare_text_inputs T (.str s) = .ok [tokenizeMaxLength T s] ∧
        (tokenizeMaxLength T s).length = T.modelMaxLength) ∧
    (∀ l : List String, ∃ rows, prepare_text_inputs T (.list l) = .ok rows ∧
        rows.length = l.length ∧ ∀ row ∈ rows, row.length = T.modelMaxLength) ∧
    (∀ toks : List ℤ, toks.length ≤ T.modelMaxLength →
        padTruncate T.modelMaxLength T.padTokenId toks =
          toks ++ List.replicate (T.modelMaxLength - toks.length) T.padTokenId) ∧
    (∀ toks : List ℤ, T.modelMaxLength ≤ toks.length →
        padTruncate T.modelMaxLength T.padTokenId toks = toks.take T.modelMaxLength) ∧
    (∀ typeName : String, prepare_text_inputs T (.other typeName) =
        .error ("prompt has to be of type str or list but is " ++ typeName)) := by
  refine ⟨?_, ?_, ?_, ?_, ?_⟩
  · intro s
    exact ⟨rfl, padTruncate_length _ _ _⟩
  · intro l
    refine ⟨l.map (tokenizeMaxLength T), rfl, by simp, ?_⟩
    intro row hrow
    rcases List.mem_map.mp hrow with ⟨s, _, rfl⟩
    exact padTruncate_length _ _ _
  · intro toks h
    simp [padTruncate, List.take_of_length_le h]
  · intro toks h
    simp [padTruncate, Nat.sub_eq_zero_of_le h]
  · intro typeName
    rfl

/-- C8 witness: a concrete tokenizer with maximum length 3 pads a short
prompt and truncates a long one to rows of length exactly 3, and rejects a
non-string, non-list prompt. -/
theorem prepare_text_inputs_spec_witness :
    (tokenizeMaxLength ⟨3, 0, fun s => List.replicate s.length 7⟩ "ab").length = 3 ∧
    padTruncate 3 0 [7, 7] = [7, 7] ++ List.replicate 1 0 ∧
    padTruncate 3 0 [7, 7, 7, 7] = [7, 7, 7] ∧
    prepare_text_inputs ⟨3, 0, fun s => List.replicate s.length 7⟩ (.other "int") =
      .error "prompt has to be of type str or list but is int" := by
  have h := prepare_text_inputs_spec ⟨3, 0, fun s => List.replicate s.length 7⟩
  refine ⟨(h.1 "ab").2, ?_, ?_, h.2.2.2.2 "int"⟩
  · simpa using h.2.2.1 [7, 7] (by decide)
  · simpa using h.2.2.2.1 [7, 7, 7, 7] (by decide)

/-! ## Latent preparation and the _generate entry point
(custom_pipeline.py, _generate) -/

/-- A four-component tensor shape: batch, channels, height, width. -/
abbrev Shape4 := ℕ × ℕ × ℕ × ℕ

/-- A latents tensor: its shape together with its (flattened) entries. -/
structure Latents where
  shape : Shape4
  entries : List ℚ
deriving Repr, DecidableEq

/-- Errors raised by _generate: the divisible-by-64 precondition on the
conditioning image (InvalidInput) and the latents shape check
(ShapeMismatch). -/
inductive GenError where
  | invalidDims (height width : ℕ)
  | shapeMismatch (got expected : Shape4)
deriving Repr, DecidableEq

/-- The latent shape derived in _generate: (batch size, unet input channels,
height / vae_scale_factor, width / vae_scale_factor). -/
def latents_shape (batchSize inChannels height width vaeScaleFactor : ℕ) : Shape4 :=
  (batchSize, inChannels, height / vaeScaleFactor, width / vaeScaleFactor)

/-- Embedding of the latents branch of _generate: when no latents are given,
sample them with the external standard-normal sampler jax.random.normal
(modelled abstractly as randNormal) at the supplied prng seed and the derived
shape; when latents are given, fail unless their shape equals the derived
shape. -/
def prepareLatents (shape : Shape4) (latents : Option Latents)
    (randNormal : ℕ → Shape4 → Latents) (prngSeed : ℕ) : Except GenError Latents :=
  match latents with
  | none => .ok (randNormal prngSeed shape)
  | some l => if l.shape ≠ shape then .error (.shapeMismatch l.shape shape) else .ok l

/-- Skeleton of _generate: the divisible-by-64 validation of the
conditioning image runs first; only then are the text encoder, the
uncond-prompt tokenizer, the latent sampler, the denoising loop and the VAE
decoder (all passed in as abstract computations) consulted. -/
def generate_model {Emb Img : Type}
    (textEncoder : List (List ℤ) → Emb)
    (tokenizeUncond : ℕ → ℕ → List (List ℤ))
    (randNormal : ℕ → Shape4 → Latents)
    (runDenoise : Emb → Emb → Latents → Latents)
    (decode : Latents → Img)
    (inChannels vaeScaleFactor : ℕ)
    (promptIds : List (List ℤ)) (height width : ℕ)
    (prngSeed : ℕ) (latents : Option Latents)
    (negPromptIds : Option (List (List ℤ))) : Except GenError Img :=
  if height % 64 ≠ 0 ∨ width % 64 ≠ 0 then
    .error (.invalidDims height width)
  else
    let promptEmbeds := textEncoder promptIds
    let batchSize := promptIds.length
    let maxLength := (promptIds.headD []).length
    let uncondInput :=
      match negPromptIds with
      | none => tokenizeUncond batchSize maxLength
      | some ids => ids
    let negativePromptEmbeds := textEncoder uncondInput
    let shape := latents_shape batchSize inChannels height width vaeScaleFactor
    match prepareLatents shape latents randNormal prngSeed with
    | .error e => .error e
    | .ok l => .ok (decode (runDenoise negativePromptEmbeds promptEmbeds l))

/-- C4: for a conditioning image whose height or width is not divisible by
64, _generate fails with the InvalidInput error before any model computation
— the error result holds for every choice of the text encoder, sampler,
denoiser and decoder, so no model computation can influence it — while for
dimensions both divisible by 64 the check passes: the result is never the
invalid-dimensions error. -/
theorem generate_dims_check {Emb Img : Type}
    (textEncoder : List (List ℤ) → Emb)
    (tokenizeUncond : ℕ → ℕ → List (List ℤ))
    (randNormal : ℕ → Shape4 → Latents)
    (runDenoise : Emb → Emb → Latents → Latents)
    (decode : Latents → Img)
    (inChannels vaeScaleFactor : ℕ)
    (promptIds : List (List ℤ)) (height width : ℕ)
    (prngSeed : ℕ) (latents : Option Latents)
    (negPromptIds : Option (List (List ℤ))) :
    (height % 64 ≠ 0 ∨ width % 64 ≠ 0 →
      generate_model textEncoder tokenizeUncond randNormal runDenoise decode
          inChannels vaeScaleFactor promptIds height width prngSeed latents
          negPromptIds
        = .error (.invalidDims height width)) ∧
    (height % 64 = 0 → width % 64 = 0 →
      ∀ h w : ℕ,
        generate_model textEncoder tokenizeUncond randNormal runDenoise decode
            inChannels vaeScaleFactor promptIds height width prngSeed latents
            negPromptIds
          ≠ .error (.invalidDims h w)) := by
  constructor
  · intro hbad
    simp [generate_model, hbad]
  · intro hh hw h w
    simp only [generate_model, hh, hw]
    simp only [ne_eq, not_true_eq_false, or_self, if_false, ite_false]
    cases hp : prepareLatents
        (latents_shape promptIds.length inChannels height width vaeScaleFactor)
        latents randNormal prngSeed with
    | error e =>
      simp only [hp]
      intro hcontra
      rcases latents with _ | l
      · simp [prepareLatents] at hp
      · simp only [prepareLatents] at hp
        split at hp
        · cases hp
          cases hcontra
        · cases hp
    | ok l => simp [hp]

/-- C4 witness: a 300 by 300 conditioning image is rejected with the
InvalidInput error, and a 512 by 512 image passes the dimension check. -/
theorem generate_dims_check_witness :
    generate_model (fun _ => ()) (fun _ _ => []) (fun _ s => ⟨s, []⟩)
        (fun _ _ l => l) (fun l => l) 4 8 [[1]] 300 300 0 none none
      = .error (.invalidDims 300 300) ∧
    generate_model (fun _ => ()) (fun _ _ => []) (fun _ s => ⟨s, []⟩)
        (fun _ _ l => l) (fun l => l) 4 8 [[1]] 512 512 0 none none
      ≠ .error (.invalidDims 512 512) := by
  constructor
  · exact (generate_dims_check (fun _ => ()) (fun _ _ => []) (fun _ s => ⟨s, []⟩)
      (fun _ _ l => l) (fun l => l) 4 8 [[1]] 300 300 0 none none).1
      (by decide)
  · exact (generate_dims_check (fun _ => ()) (fun _ _ => []) (fun _ s => ⟨s, []⟩)
      (fun _ _ l => l) (fun l => l) 4 8 [[1]] 512 512 0 none none).2
      (by decide) (by decide) 512 512

/-- C5: the expected latent shape in _generate is (batch size, unet input
channels, height / vae_scale_factor, width / vae_scale_factor) — spatially
64 by 64 for a 512 by 512 image at vae scale factor 8; a caller-supplied
latents tensor of any other shape makes the call fail with the ShapeMismatch
error, and absent latents are sampled by the seeded standard-normal
sampler at exactly the derived shape. -/
theorem generate_latents_spec {Emb Img : Type}
    (textEncoder : List (List ℤ) → Emb)
    (tokenizeUncond : ℕ → ℕ → List (List ℤ))
    (randNormal : ℕ → Shape4 → Latents)
    (runDenoise : Emb → Emb → Latents → Latents)
    (decode : Latents → Img)
    (inChannels : ℕ)
    (promptIds : List (List ℤ))
    (prngSeed : ℕ)
    (negPromptIds : Option (List (List ℤ))) :
    (∀ batchSize : ℕ,
      latents_shape batchSize inChannels 512 512 8 = (batchSize, inChannels, 64, 64)) ∧
    (∀ shape : Shape4, ∀ l : Latents, l.shape ≠ shape →
      prepareLatents shape (some l) randNormal prngSeed =
        .error (.shapeMismatch l.shape shape)) ∧
    (∀ shape : Shape4,
      prepareLatents shape none randNormal prngSeed = .ok (randNormal prngSeed shape)) ∧
    (∀ l : Latents, ∀ height width vaeScaleFactor : ℕ,
      height % 64 = 0 → width % 64 = 0 →
      l.shape ≠ latents_shape promptIds.length inChannels height width vaeScaleFactor →
      generate_model textEncoder tokenizeUncond randNormal runDenoise decode
          inChannels vaeScaleFactor promptIds height width prngSeed (some l)
          negPromptIds
        = .error (.shapeMismatch l.shape
            (latents_shape promptIds.length inChannels height width vaeScaleFactor))) := by
  refine ⟨?_, ?_, ?_, ?_⟩
  · intro batchSize
    rfl
  · intro shape l hne
    simp [prepareLatents, hne]
  · intro shape
    rfl
  · intro l height width vaeScaleFactor hh hw hne
    simp [generate_model, hh, hw, prepareLatents, hne]

/-- C5 witness: for a 512 by 512 image, batch 1, 4 input channels and scale
factor 8, the derived shape is (1, 4, 64, 64); supplying latents of shape
(1, 4, 63, 64) fails with the ShapeMismatch error, and absent latents come
from the seeded sampler at the derived shape. -/
theorem generate_latents_spec_witness :
    latents_shape 1 4 512 512 8 = (1, 4, 64, 64) ∧
    generate_model (fun _ => ()) (fun _ _ => []) (fun seed s => ⟨s, [(seed : ℚ)]⟩)
        (fun _ _ l => l) (fun l => l) 4 8 [[1]] 512 512 0
        (some ⟨(1, 4, 63, 64), []⟩) none
      = .error (.shapeMismatch (1, 4, 63, 64) (1, 4, 64, 64)) ∧
    prepareLatents (1, 4, 64, 64) none (fun seed s => ⟨s, [(seed : ℚ)]⟩) 0
      = .ok ⟨(1, 4, 64, 64), [0]⟩ := by
  have h := generate_latents_spec (fun _ => ()) (fun _ _ => [])
    (fun seed s => ⟨s, [(seed : ℚ)]⟩) (fun _ _ l => l) (fun l => l) 4 [[1]] 0 none
  refine ⟨h.1 1, ?_, ?_⟩
  · exact h.2.2.2 ⟨(1, 4, 63, 64), []⟩ 512 512 8 (by decide) (by decide) (by decide)
  · exact h.2.2.1 (1, 4, 64, 64)

/-! ## The denoising loop (custom_pipeline.py, loop_body and the
DEBUG / fori_loop execution paths of _generate) -/

/-- One flattened per-sample tensor. -/
abbrev Sample := List ℚ

/-- A batched tensor: a list of per-sample tensors, batch axis outermost. -/
abbrev Batched := List Sample

/-- Elementwise sum of two samples. -/
def addS (a b : Sample) : Sample := List.zipWith (· + ·) a b

/-- Elementwise difference of two samples. -/
def subS (a b : Sample) : Sample := List.zipWith (fun x y => x - y) a b

/-- Scalar multiple of a sample. -/
def smulS (c : ℚ) (a : Sample) : Sample := a.map (fun x => c * x)

/-- Classifier-free guidance on one sample:
uncond + guidanceScale * (text - uncond). -/
def guidedSample (guidanceScale : ℚ) (uncond text : Sample) : Sample :=
  addS uncond (smulS guidanceScale (subS text uncond))

/-- Classifier-free guidance applied batch-wise. -/
def guidedNoise (guidanceScale : ℚ) (uncond text : Batched) : Batched :=
  List.zipWith (guidedSample guidanceScale) uncond text

/-- jnp.split(x, 2, axis=0): the two halves of a batched tensor along the
batch axis. -/
def split2 (xs : Batched) : Batched × Batched :=
  (xs.take (xs.length / 2), xs.drop (xs.length / 2))

/-- Scheduler state as used by loop_body: the ordered timestep list (the
stepping rule itself stays abstract). -/
structure SchedulerState where
  timesteps : List ℤ
deriving Repr, DecidableEq

/-- The external networks and scheduler functions consulted by loop_body,
kept abstract: input scaling, the ControlNet (returning down-block and
mid-block residuals), the UNet, and the scheduler step. -/
structure DenoiseModels where
  scaleModelInput : SchedulerState → Batched → ℤ → Batched
  controlnetApply : Batched → ℤ → Batched → Batched → ℚ → (List Batched × Batched)
  unetApply : Batched → ℤ → Batched → (List Batched × Batched) → Batched
  schedulerStep : SchedulerState → Batched → ℤ → Batched → (Batched × SchedulerState)

/-- Embedding of loop_body in _generate: duplicate the latents along the
batch axis, read the current timestep, scale the model input, run the
ControlNet and the UNet on the doubled batch, split the noise prediction in
two along the batch axis, combine the halves by classifier-free guidance and
advance the scheduler one step with the combined prediction. -/
def loop_body (M : DenoiseModels) (context image : Batched)
    (guidanceScale conditioningScale : ℚ) (step : ℕ)
    (args : Batched × SchedulerState) : Batched × SchedulerState :=
  let latents := args.1
  let schedulerState := args.2
  let latentsInput := latents ++ latents
  let t := schedulerState.timesteps.getD step 0
  let latentsInputScaled := M.scaleModelInput schedulerState latentsInput t
  let residuals := M.controlnetApply latentsInputScaled t context image conditioningScale
  let noisePred := M.unetApply latentsInputScaled t context residuals
  let halves := split2 noisePred
  let noisePredFinal := guidedNoise guidanceScale halves.1 halves.2
  M.schedulerStep schedulerState noisePredFinal t latents

/-- Embedding of jax.lax.fori_loop(lower, upper, body, val): apply body to
the running value at every index from lower up to upper. -/
def fori_loop {α : Type} (lower upper : ℕ) (body : ℕ → α → α) (val : α) : α :=
  if lower < upper then fori_loop (lower + 1) upper body (body lower val) else val
termination_by upper - lower
decreasing_by omega

/-- Embedding of the DEBUG path of _generate: a sequential Python for loop
over range(num_inference_steps). -/
def debug_loop {α : Type} (numSteps : ℕ) (body : ℕ → α → α) (val : α) : α :=
  (List.range numSteps).foldl (fun v i => body i v) val

theorem fori_loop_eq_foldl_range (lower upper : ℕ) {α : Type}
    (body : ℕ → α → α) (val : α) :
    fori_loop lower upper body val =
      (List.range' lower (upper - lower)).foldl (fun v i => body i v) val := by
  generalize hk : upper - lower = k
  induction k generalizing lower val with
  | zero =>
    rw [fori_loop]
    have : ¬ lower < upper := by omega
    simp [this]
  | succ k ih =>
    have hlt : lower < upper := by omega
    rw [fori_loop, if_pos hlt, List.range'_succ, List.foldl_cons]
    exact ih (lower + 1) (body lower val) (by omega)

/-- C6: running the denoising loop as the sequential per-step DEBUG loop and
as the fused jax.lax.fori_loop construct yields the same final latents (and
the same final scheduler state), for every model stack, conditioning
context, guidance and conditioning scale, step count and initial state. -/
theorem denoise_loop_paths_equivalent (M : DenoiseModels) (context image : Batched)
    (guidanceScale conditioningScale : ℚ) (numInferenceSteps : ℕ)
    (latents : Batched) (schedulerState : SchedulerState) :
    (debug_loop numInferenceSteps
        (loop_body M context image guidanceScale conditioningScale)
        (latents, schedulerState)).1 =
      (fori_loop 0 numInferenceSteps
        (loop_body M context image guidanceScale conditioningScale)
        (latents, schedulerState)).1 ∧
    debug_loop numInferenceSteps
        (loop_body M context image guidanceScale conditioningScale)
        (latents, schedulerState) =
      fori_loop 0 numInferenceSteps
        (loop_body M context image guidanceScale conditioningScale)
        (latents, schedulerState) := by
  have h : debug_loop numInferenceSteps
      (loop_body M context image guidanceScale conditioningScale)
      (latents, schedulerState) =
    fori_loop 0 numInferenceSteps
      (loop_body M context image guidanceScale conditioningScale)
      (latents, schedulerState) := by
    rw [fori_loop_eq_foldl_range, debug_loop, Nat.sub_zero, List.range_eq_range']
  exact ⟨congrArg Prod.fst h, h⟩

/-- C1: loop_body advances the scheduler with exactly the classifier-free
guided prediction — the scheduler step receives
guidedNoise applied to the two halves of the doubled-batch UNet output;
splitting a doubled batch returns its two halves exactly; and the guided
prediction is elementwise uncond + guidanceScale * (text - uncond). -/
theorem loop_body_guided_step (M : DenoiseModels) (context image : Batched)
    (guidanceScale conditioningScale : ℚ) (step : ℕ)
    (latents : Batched) (schedulerState : SchedulerState) :
    (loop_body M context image guidanceScale conditioningScale step
        (latents, schedulerState) =
      M.schedulerStep schedulerState
        (guidedNoise guidanceScale
          (split2 (M.unetApply
            (M.scaleModelInput schedulerState (latents ++ latents)
              (schedulerState.timesteps.getD step 0))
            (schedulerState.timesteps.getD step 0) context
            (M.controlnetApply
              (M.scaleModelInput schedulerState (latents ++ latents)
                (schedulerState.timesteps.getD step 0))
              (schedulerState.timesteps.getD step 0) context image
              conditioningScale))).1
          (split2 (M.unetApply
            (M.scaleModelInput schedulerState (latents ++ latents)
              (schedulerState.timesteps.getD step 0))
            (schedulerState.timesteps.getD step 0) context
            (M.controlnetApply
              (M.scaleModelInput schedulerState (latents ++ latents)
                (schedulerState.timesteps.getD step 0))
              (schedulerState.timesteps.getD step 0) context image
              conditioningScale))).2)
        (schedulerState.timesteps.getD step 0) latents) ∧
    (∀ xs ys : Batched, xs.length = ys.length → split2 (xs ++ ys) = (xs, ys)) ∧
    (∀ uncond text : Sample, ∀ j : ℕ, j < uncond.length → j < text.length →
      (guidedSample guidanceScale uncond text).getD j 0 =
        uncond.getD j 0 + guidanceScale * (text.getD j 0 - uncond.getD j 0)) := by
  refine ⟨rfl, ?_, ?_⟩
  · intro xs ys hlen
    have hl : (xs ++ ys).length / 2 = xs.length := by
      simp [List.length_append, hlen]
      omega
    rw [split2, hl]
    simp [List.take_left, List.drop_left]
  · intro uncond text j hju hjt
    induction uncond generalizing text j with
    | nil => simp at hju
    | cons a u ih =>
      cases text with
      | nil => simp at hjt
      | cons b v =>
        cases j with
        | zero => simp [guidedSample, addS, smulS, subS]
        | succ j =>
          have hju2 : j < u.length := by simpa using hju
          have hjt2 : j < v.length := by simpa using hjt
          simpa [guidedSample, addS, smulS, subS] using ih v j hju2 hjt2

/-- Trivial concrete instantiation of the abstract model stack, used by the
loop-body witness. -/
def trivialModels : DenoiseModels where
  scaleModelInput := fun _ b _ => b
  controlnetApply := fun _ _ _ _ _ => ([], [])
  unetApply := fun b _ _ _ => b
  schedulerStep := fun st np _ _ => (np, st)

/-- C1 witness: concrete guided combination 1 + 2 * (4 - 1) = 7 at index 0,
and a concrete split of a doubled batch. -/
theorem loop_body_guided_step_witness :
    (guidedSample 2 [1] [4]).getD 0 0 = (1 : ℚ) + 2 * (4 - 1) ∧
    split2 ([[1]] ++ [[2]]) = ([[(1 : ℚ)]], [[(2 : ℚ)]]) := by
  have h := loop_body_guided_step trivialModels [] [] 2 1 0 [] ⟨[]⟩
  exact ⟨h.2.2 [1] [4] 0 (by decide) (by decide), h.2.1 [[1]] [[2]] rfl⟩

/-- C2: with a configured safety checker, every flagged image is
replaced in the result by the all-zero image of its own shape, every
unflagged image of the batch is returned unchanged, at least one non-fatal
warning is emitted exactly when some image is flagged, and the call still
returns a full-size batch of images together with the flags. -/
theorem run_safety_checker_spec (images : List NpImage) (flags : List Bool)
    (hlen : flags.length = images.length) :
    ((run_safety_checker images flags).1).length = images.length ∧
    (run_safety_checker images flags).2.1 = flags ∧
    (∀ i : ℕ, i < images.length → flags.getD i false = true →
      (run_safety_checker images flags).1.getD i [] = zerosLike (images.getD i [])) ∧
    (∀ i : ℕ, i < images.length → flags.getD i false = false →
      (run_safety_checker images flags).1.getD i [] = images.getD i []) ∧
    (0 < (run_safety_checker images flags).2.2 ↔ flags.any id = true) := by
  refine ⟨blockFlagged_length images flags, rfl, ?_, ?_, ?_⟩
  · intro i hi hflag
    show (blockFlagged images flags).getD i [] = zerosLike (images.getD i [])
    rw [blockFlagged_getD images flags i hi, hflag]
    simp
  · intro i hi hflag
    show (blockFlagged images flags).getD i [] = images.getD i []
    rw [blockFlagged_getD images flags i hi, hflag]
    simp
  · show 0 < safetyWarnCount flags ↔ flags.any id = true
    rw [safetyWarnCount]
    by_cases h : flags.any id = true
    · have hne : flags ≠ [] := by
        intro hnil
        rw [hnil] at h
        simp at h
      simp [h, List.length_pos.mpr hne]
    · simp [h]

/-- C2 witness: in a batch of two images with the first flagged, the first
comes back as the all-zero image, the second is unchanged, and at least one
warning is emitted. -/
theorem run_safety_checker_spec_witness :
    (run_safety_checker [[5, 6], [7, 8]] [true, false]).1.getD 0 [] = [0, 0] ∧
    (run_safety_checker [[5, 6], [7, 8]] [true, false]).1.getD 1 [] = [7, 8] ∧
    0 < (run_safety_checker [[5, 6], [7, 8]] [true, false]).2.2 := by
  have h := run_safety_checker_spec [[5, 6], [7, 8]] [true, false] rfl
  refine ⟨?_, ?_, ?_⟩
  · have h0 := h.2.2.1 0 (by decide) (by decide)
    simpa [zerosLike] using h0
  · exact h.2.2.2.1 1 (by decide) (by decide)
  · exact h.2.2.2.2.mpr (by decide)

/-! ## Video preparation (utils.py, prepare_video) -/

/-- The source video as seen by prepare_video: its frame count and average
frame rate (decord.VideoReader, get_avg_fps). -/
structure VideoSource where
  numFrames : ℕ
  avgFps : ℚ
deriving Repr, DecidableEq

/-- Errors raised by the two assertions of prepare_video. -/
inductive VideoError where
  | invalidRange (startT endT : ℚ)
  | invalidFps (fps : ℤ)
deriving Repr, DecidableEq

/-- Result of the sampling logic of prepare_video: the sampled source frame
indices and the resolved output frame rate. -/
structure PreparedSampling where
  sampleIdx : List ℤ
  outputFps : ℤ
deriving Repr, DecidableEq

/-- np.linspace(start, stop, num, endpoint=False).astype(int): num evenly
spaced values from start (inclusive) toward stop (exclusive), truncated to
integers. -/
def linspace_int (start stop : ℤ) (num : ℕ) : List ℤ :=
  (List.range num).map
    (fun (k : ℕ) =>
      pyInt ((start : ℚ) + (k : ℚ) * (((stop : ℚ) - (start : ℚ)) / (num : ℚ))))

/-- Resolution of the output_fps argument: -1 means the source frame rate,
truncated to an integer. -/
def resolve_output_fps (initialFps : ℚ) (outputFps : ℤ) : ℤ :=
  if outputFps = -1 then pyInt initialFps else outputFps

/-- Resolution of the end_t argument: -1 means the full video duration,
any other value is clamped to the duration. -/
def resolve_end_t (numFrames : ℕ) (initialFps : ℚ) (endT : ℚ) : ℚ :=
  if endT = -1 then (numFrames : ℚ) / initialFps
  else min ((numFrames : ℚ) / initialFps) endT

/-- Embedding of the trimming and sampling logic of prepare_video: resolve
output_fps and end_t, check the two assertions, and sample
int((end_t - start_t) * output_fps) evenly spaced frame indices from
[int(start_t * fps), int(end_t * fps)). -/
def prepare_video (vr : VideoSource) (startT endT : ℚ) (outputFps : ℤ) :
    Except VideoError PreparedSampling :=
  let initialFps := vr.avgFps
  let ofps := resolve_output_fps initialFps outputFps
  let endT2 := resolve_end_t vr.numFrames initialFps endT
  if ¬ (0 ≤ startT ∧ startT < endT2) then .error (.invalidRange startT endT2)
  else if ¬ (0 < ofps) then .error (.invalidFps ofps)
  else
    let startF := pyInt (startT * initialFps)
    let endF := pyInt (endT2 * initialFps)
    let numF := (pyInt ((endT2 - startT) * (ofps : ℚ))).toNat
    .ok { sampleIdx := linspace_int startF endF numF, outputFps := ofps }

theorem linspace_int_length (start stop : ℤ) (num : ℕ) :
    (linspace_int start stop num).length = num := by
  rw [linspace_int, List.length_map, List.length_range]

theorem linspace_int_bounds (start stop : ℤ) (num : ℕ)
    (h0 : 0 ≤ start) (hss : start ≤ stop) :
    ∀ x ∈ linspace_int start stop num, start ≤ x ∧ (start < stop → x < stop) := by
  intro x hx
  rcases List.mem_map.mp hx with ⟨k, hk, rfl⟩
  have hknum : k < num := by simpa using hk
  have hnumpos : 0 < num := Nat.pos_of_ne_zero (by omega)
  have hnumQ : (0 : ℚ) < (num : ℚ) := by exact_mod_cast hnumpos
  have hdQ : (0 : ℚ) ≤ (stop : ℚ) - (start : ℚ) := by
    have : (start : ℚ) ≤ (stop : ℚ) := by exact_mod_cast hss
    linarith
  have hstep : (0 : ℚ) ≤ ((stop : ℚ) - (start : ℚ)) / (num : ℚ) :=
    div_nonneg hdQ (le_of_lt hnumQ)
  have hkQ : (0 : ℚ) ≤ (k : ℚ) := by positivity
  have hv : (start : ℚ) ≤ (start : ℚ) + (k : ℚ) * (((stop : ℚ) - (start : ℚ)) / (num : ℚ)) :=
    le_add_of_nonneg_right (mul_nonneg hkQ hstep)
  have hv0 : (0 : ℚ) ≤ (start : ℚ) + (k : ℚ) * (((stop : ℚ) - (start : ℚ)) / (num : ℚ)) := by
    have : (0 : ℚ) ≤ (start : ℚ) := by exact_mod_cast h0
    linarith
  constructor
  · exact le_pyInt start _ hv0 hv
  · intro hlt
    have hdpos : (0 : ℚ) < (stop : ℚ) - (start : ℚ) := by
      have : (start : ℚ) < (stop : ℚ) := by exact_mod_cast hlt
      linarith
    have hkle : (k : ℚ) ≤ (num : ℚ) - 1 := by
      have : (k : ℚ) + 1 ≤ (num : ℚ) := by exact_mod_cast hknum
      linarith
    have hmono : (k : ℚ) * (((stop : ℚ) - (start : ℚ)) / (num : ℚ))
        ≤ ((num : ℚ) - 1) * (((stop : ℚ) - (start : ℚ)) / (num : ℚ)) :=
      mul_le_mul_of_nonneg_right hkle hstep
    have hfrac : ((num : ℚ) - 1) / (num : ℚ) < 1 := by
      rw [div_lt_one hnumQ]
      linarith
    have hlast : ((num : ℚ) - 1) * (((stop : ℚ) - (start : ℚ)) / (num : ℚ))
        < (stop : ℚ) - (start : ℚ) := by
      calc ((num : ℚ) - 1) * (((stop : ℚ) - (start : ℚ)) / (num : ℚ))
          = ((stop : ℚ) - (start : ℚ)) * (((num : ℚ) - 1) / (num : ℚ)) := by ring
        _ < ((stop : ℚ) - (start : ℚ)) * 1 := mul_lt_mul_of_pos_left hfrac hdpos
        _ = (stop : ℚ) - (start : ℚ) := mul_one _
    have hvlt : (start : ℚ) + (k : ℚ) * (((stop : ℚ) - (start : ℚ)) / (num : ℚ))
        < (stop : ℚ) := by linarith
    rw [pyInt_nonneg_eq_floor _ hv0]
    exact Int.floor_lt.mpr hvlt

/-- C7: prepare_video resolves output_fps = -1 to the truncated source rate
and end_t = -1 to the full duration (clamping any other end_t to the
duration), raises InvalidInput when 0 <= start_t < end_t or output_fps > 0
fails, and otherwise samples int((end_t - start_t) * output_fps) frame
indices — exactly (end_t - start_t) * output_fps of them when that product
is a whole number — evenly spaced over [int(start_t * fps),
int(end_t * fps)), left-inclusive and right-exclusive. -/
theorem prepare_video_spec (vr : VideoSource) (startT endT : ℚ) (outputFps : ℤ) :
    (resolve_output_fps vr.avgFps (-1) = pyInt vr.avgFps) ∧
    (outputFps ≠ -1 → resolve_output_fps vr.avgFps outputFps = outputFps) ∧
    (resolve_end_t vr.numFrames vr.avgFps (-1) = (vr.numFrames : ℚ) / vr.avgFps) ∧
    (endT ≠ -1 → resolve_end_t vr.numFrames vr.avgFps endT
        = min ((vr.numFrames : ℚ) / vr.avgFps) endT) ∧
    (¬ (0 ≤ startT ∧ startT < resolve_end_t vr.numFrames vr.avgFps endT) →
      prepare_video vr startT endT outputFps
        = .error (.invalidRange startT (resolve_end_t vr.numFrames vr.avgFps endT))) ∧
    ((0 ≤ startT ∧ startT < resolve_end_t vr.numFrames vr.avgFps endT) →
      ¬ (0 < resolve_output_fps vr.avgFps outputFps) →
      prepare_video vr startT endT outputFps
        = .error (.invalidFps (resolve_output_fps vr.avgFps outputFps))) ∧
    ((0 ≤ startT ∧ startT < resolve_end_t vr.numFrames vr.avgFps endT) →
      0 < resolve_output_fps vr.avgFps outputFps →
      prepare_video vr startT endT outputFps = .ok
        { sampleIdx := linspace_int (pyInt (startT * vr.avgFps))
            (pyInt (resolve_end_t vr.numFrames vr.avgFps endT * vr.avgFps))
            ((pyInt ((resolve_end_t vr.numFrames vr.avgFps endT - startT)
              * (resolve_output_fps vr.avgFps outputFps : ℚ))).toNat),
          outputFps := resolve_output_fps vr.avgFps outputFps }) ∧
    (∀ q : ℚ, ∀ n : ℕ, q = (n : ℚ) → (pyInt q).toNat = n) ∧
    (∀ start stop : ℤ, ∀ num : ℕ, (linspace_int start stop num).length = num) ∧
    (∀ start stop : ℤ, ∀ num : ℕ, 0 ≤ start → start ≤ stop →
      ∀ x ∈ linspace_int start stop num, start ≤ x ∧ (start < stop → x < stop)) := by
  refine ⟨rfl, ?_, rfl, ?_, ?_, ?_, ?_, ?_, linspace_int_length, linspace_int_bounds⟩
  · intro h
    rw [resolve_output_fps, if_neg h]
  · intro h
    rw [resolve_end_t, if_neg h]
  · intro h
    rw [prepare_video]
    simp only [if_pos h]
  · intro hvalid hofps
    rw [prepare_video]
    simp only [if_neg (not_not_intro hvalid), if_pos hofps]
  · intro hvalid hofps
    rw [prepare_video]
    simp only [if_neg (not_not_intro hvalid), if_neg (not_not_intro hofps)]
  · intro q n hq
    rw [hq, pyInt_nonneg_eq_floor _ (by positivity), Int.floor_natCast, Int.toNat_natCast]

/-- C7 witness: on a 10-second source video (250 frames at 25 fps),
output_fps = -1 resolves to 25 and end_t = -1 resolves to the duration 10;
calling with start_t = 5 and end_t = 2 raises the InvalidInput range error;
and 250 indices are sampled for the full clip. -/
theorem prepare_video_spec_witness :
    resolve_output_fps 25 (-1) = 25 ∧
    resolve_end_t 250 25 (-1) = 10 ∧
    prepare_video ⟨250, 25⟩ 5 2 (-1) = .error (.invalidRange 5 2) ∧
    (linspace_int 0 250 250).length = 250 := by
  have h1 := prepare_video_spec ⟨250, 25⟩ 0 (-1) (-1)
  have h2 := prepare_video_spec ⟨250, 25⟩ 5 2 (-1)
  refine ⟨?_, ?_, ?_, ?_⟩
  · have e1 : resolve_output_fps 25 (-1) = pyInt 25 := h1.1
    rw [e1]
    norm_num [pyInt]
  · have e2 : resolve_end_t 250 25 (-1) = ((250 : ℕ) : ℚ) / 25 := h1.2.2.1
    rw [e2]
    norm_num
  · have e4 : resolve_end_t 250 25 2 = min (((250 : ℕ) : ℚ) / 25) 2 :=
      h2.2.2.2.1 (by norm_num)
    have hend : resolve_end_t 250 25 2 = 2 := by
      rw [e4]
      exact min_eq_right (by norm_num)
    have hinv := h2.2.2.2.2.1 (by rw [hend]; norm_num)
    rw [hend] at hinv
    exact hinv
  · exact h1.2.2.2.2.2.2.2.2.1 0 250 250
